import Mathlib

/-!
# A shallow embedding of `claude-setup/hooks/security_hook.py`

The hook is a synchronous admission-control gate: it receives one tool
invocation (a JSON object with a `tool` identifier and a `parameters`
mapping), classifies it as allowed or blocked using a static catalog of
dangerous-command and sensitive-path rules, and signals the verdict through
the process exit code.

Modelling conventions, from the Python source:

* Python strings are Lean `String` (a wrapper around `List Char`); the
  ASCII behaviour of `str.lower` and `str.strip` is modelled exactly
  (`lowerChar`, `isPyWs`).  The inputs the rules are built from are ASCII.
* The values a decoded JSON payload can hold are the inductive `PyVal`
  (strings, integers, booleans, null, arrays, objects).  `pyToStr` models
  Python `str(...)` on such values, and `pyTruthy` models Python truthiness.
* `re.search(pattern, s, re.IGNORECASE)` is modelled by a small
  regular-expression evaluator (`Re`, `Re.mres`, `pySearch`): each pattern
  literal of the source is transcribed into a `Re` term next to its original
  text.  Case-insensitive search is modelled by case-folding the subject,
  which agrees with `re.IGNORECASE` for the ASCII-only patterns involved.
* Python `set` literals iterate in an unspecified per-process order
  (hash randomization).  The boolean part of every verdict is independent
  of that order, but the first-match reason string is not, so the exact
  command-rule scan order is an explicit parameter of
  `check_dangerous_command_ord` / `validate_tool_call_ord`, ranging over
  the permutations of the set's elements; `check_dangerous_command` and
  `validate_tool_call` fix the source-text order.
* The process edge (`main`) is modelled as a function of the decode result
  of the input payload (`Except String PyVal`), returning the exit code and
  the diagnostic line, if any (`runMain`).  Faults that the evaluation code
  can raise after a successful decode (attribute errors from calling `.get`
  or `.lower` on a value of the wrong shape) are modelled by `Except PyErr`;
  the carried message approximates the Python exception text.
-/

/-- ASCII model of Python `str.lower` on one character. -/
def lowerChar (c : Char) : Char :=
  if 'A' ≤ c ∧ c ≤ 'Z' then Char.ofNat (c.toNat + 32) else c

/-- The characters Python `str.strip()` removes (ASCII whitespace). -/
def isPyWs (c : Char) : Bool :=
  c = ' ' || c = '\t' || c = '\n' || c = '\r' || c = '\x0b' || c = '\x0c'

/-- Python `s.lower()` (ASCII model). -/
def pyLower (s : String) : String := ⟨s.data.map lowerChar⟩

/-- Strip leading and trailing whitespace from a character list. -/
def stripData (l : List Char) : List Char :=
  ((l.dropWhile isPyWs).reverse.dropWhile isPyWs).reverse

/-- Python `s.strip()` (ASCII model). -/
def pyStrip (s : String) : String := ⟨stripData s.data⟩

/-- Predicate `isPre n l` holds when `n` is a leading segment of `l`. -/
def isPre (n l : List Char) : Bool :=
  match n, l with
  | [], _ => true
  | _ :: _, [] => false
  | c :: cs, d :: ds => c = d && isPre cs ds

/-- Predicate `isSub n l` holds when `n` occurs contiguously somewhere inside `l`. -/
def isSub (n : List Char) : List Char → Bool
  | [] => isPre n []
  | l@(_ :: t) => isPre n l || isSub n t

/-- Predicate `isSuf n l` holds when `n` is a trailing segment of `l`. -/
def isSuf (n l : List Char) : Bool := isPre n.reverse l.reverse

/-- Python `needle in hay` on strings. -/
def pyContains (hay needle : String) : Bool := isSub needle.data hay.data

/-- Python `s.startswith(p)`. -/
def pyStartsWith (s p : String) : Bool := isPre p.data s.data

/-- Python `s.endswith(p)`. -/
def pyEndsWith (s p : String) : Bool := isSuf p.data s.data

/-- Python `s.replace("*", "")`: drop every `*` character. -/
def removeStar (s : String) : String := ⟨s.data.filter (fun c => c != '*')⟩

/-- Left-to-right non-overlapping removal of the two-character block `/*`. -/
def removeSlashStarData : List Char → List Char
  | [] => []
  | '/' :: '*' :: rest => removeSlashStarData rest
  | c :: rest => c :: removeSlashStarData rest

/-- Python `s.replace("/*", "")`. -/
def removeSlashStar (s : String) : String := ⟨removeSlashStarData s.data⟩

/-! ## A small evaluator for the regular expressions used by the hook

`Re` covers exactly the constructs occurring in the source's pattern
literals: literal characters, `.`, character classes (with negation and
ranges), concatenation, alternation, `*` (with `+` and `?` as derived
forms), and the end anchor `$`.  `Re.mres r xs` returns the list of
remainders left after matching a leading segment of `xs` against `r`;
`searchAux` tries every start position, so `pySearch` agrees with Python
`re.search`: the end anchor accepts the end of the subject or a trailing
newline, and `.` does not match a newline. -/

inductive Re where
  | eps : Re
  | ch : Char → Re
  | dot : Re
  | cls : Bool → List Char → List (Char × Char) → Re
  | seq : Re → Re → Re
  | alt : Re → Re → Re
  | star : Re → Re
  | eol : Re
deriving DecidableEq, Repr

/-- Does `c` fall in one of the ranges? -/
def inRanges (c : Char) : List (Char × Char) → Bool
  | [] => false
  | (lo, hi) :: rest => (lo ≤ c && c ≤ hi) || inRanges c rest

/-- Character-class membership, honouring negation. -/
def clsMatch (neg : Bool) (cs : List Char) (rs : List (Char × Char)) (c : Char) : Bool :=
  let hit := cs.contains c || inRanges c rs
  if neg then !hit else hit

/-- Iterate a star body: `step` produces the remainders of one body match,
and only strictly shorter remainders are iterated, which bounds the number
of rounds by the length of the subject (`fuel` is always called with at
least that length, so the cut-off is never reached on a live branch). -/
def starMres (step : List Char → List (List Char)) : Nat → List Char → List (List Char)
  | 0, xs => [xs]
  | n + 1, xs =>
    xs :: ((step xs).filter (fun ys => decide (ys.length < xs.length))).flatMap
      (fun ys => starMres step n ys)

/-- All remainders after matching a leading segment of the subject. -/
def Re.mres : Re → List Char → List (List Char)
  | .eps, xs => [xs]
  | .ch c, xs =>
    match xs with
    | [] => []
    | x :: rest => if x = c then [rest] else []
  | .dot, xs =>
    match xs with
    | [] => []
    | x :: rest => if x = '\n' then [] else [rest]
  | .cls neg cs rs, xs =>
    match xs with
    | [] => []
    | x :: rest => if clsMatch neg cs rs x then [rest] else []
  | .eol, xs => if xs = [] ∨ xs = ['\n'] then [xs] else []
  | .alt a b, xs => a.mres xs ++ b.mres xs
  | .seq a b, xs => (a.mres xs).flatMap (fun ys => b.mres ys)
  | .star a, xs => starMres (fun ys => a.mres ys) xs.length xs

/-- Try to match `r` at every start position of the subject. -/
def searchAux (r : Re) : List Char → Bool
  | [] => !(Re.mres r []).isEmpty
  | x :: rest => !(Re.mres r (x :: rest)).isEmpty || searchAux r rest

/-- Model of `re.search(r, s)`: does `r` match somewhere inside `s`? -/
def pySearch (r : Re) (s : String) : Bool := searchAux r s.data

/-- Concatenation of a literal character list. -/
def rstrL (l : List Char) : Re := l.foldr (fun c r => Re.seq (.ch c) r) .eps

/-- Concatenation of a literal string. -/
def rstr (s : String) : Re := rstrL s.data

/-- Concatenation of a list of expressions. -/
def rseq (l : List Re) : Re := l.foldr Re.seq .eps

/-- Derived form `r?`. -/
def Re.opt (a : Re) : Re := Re.alt a .eps

/-- Derived form `r+`. -/
def Re.plus (a : Re) : Re := Re.seq a (.star a)

/-- The characters of the `\s` class (ASCII model). -/
def wsChars : List Char := [' ', '\t', '\n', '\r', '\x0b', '\x0c']

/-- Class `\s`. -/
def wsCls : Re := Re.cls false wsChars []

/-- Form `\s+`. -/
def wsPlus : Re := Re.plus wsCls

/-- Form `\s*`. -/
def wsStar : Re := Re.star wsCls

/-- Form `.*`. -/
def anyStar : Re := Re.star .dot

/-- Form `.*w.*` for a literal `w`. -/
def containsRe (w : String) : Re := rseq [anyStar, rstr w, anyStar]

/-- Form `.*w$` for a literal `w`. -/
def endsRe (w : String) : Re := rseq [anyStar, rstr w, .eol]

/-! ## The Pattern Catalog

The two rule families of the source, in source-text order.  Each regex rule
is a pair of the original pattern text (used verbatim in reason strings)
and its transcription into `Re`. -/

/-- Set `DANGEROUS_COMMANDS`: exact-match command rules, listed here in
source-text order.  The source holds them in a Python `set`, whose
per-process iteration order is unspecified; definitions that depend on the
scan order therefore take the order as a parameter ranging over the
permutations of this list. -/
def DANGEROUS_COMMANDS : List String :=
  ["rm -rf /", "dd if=/dev/zero", "mkfs", "fdisk", "format", "del /f /s /q",
   "rd /s /q", ":()\x7b :|:& \x7d;:", "curl | sh", "wget | sh", "chmod 777",
   "chmod -R 777", "sudo su", "su -"]

/-- One admissible per-process iteration order of the `DANGEROUS_COMMANDS`
set: the same fourteen rules with `mkfs` visited first. -/
def mkfsFirstOrder : List String :=
  ["mkfs", "rm -rf /", "dd if=/dev/zero", "fdisk", "format", "del /f /s /q",
   "rd /s /q", ":()\x7b :|:& \x7d;:", "curl | sh", "wget | sh", "chmod 777",
   "chmod -R 777", "sudo su", "su -"]

/-- Pattern `rm\s+-rf?\s+/[^/\s]*/?$`. -/
def reRmRf : Re :=
  rseq [rstr "rm", wsPlus, rstr "-r", Re.opt (.ch 'f'), wsPlus, .ch '/',
    .star (.cls true ('/' :: wsChars) []), Re.opt (.ch '/'), .eol]

/-- Pattern `dd\s+if=/dev/(zero|random|urandom)`. -/
def reDdZero : Re :=
  rseq [rstr "dd", wsPlus, rstr "if=/dev/",
    Re.alt (rstr "zero") (Re.alt (rstr "random") (rstr "urandom"))]

/-- Pattern `find\s+/.*-delete`. -/
def reFindDelete : Re :=
  rseq [rstr "find", wsPlus, .ch '/', anyStar, rstr "-delete"]

/-- Pattern `>(.*)/dev/(sd[a-z]|hd[a-z])`. -/
def reDiskWrite : Re :=
  rseq [.ch '>', anyStar, rstr "/dev/",
    Re.alt (rseq [rstr "sd", .cls false [] [('a', 'z')]])
      (rseq [rstr "hd", .cls false [] [('a', 'z')]])]

/-- Pattern `curl.*\|\s*(sh|bash|zsh)`. -/
def reCurlPipe : Re :=
  rseq [rstr "curl", anyStar, .ch '|', wsStar,
    Re.alt (rstr "sh") (Re.alt (rstr "bash") (rstr "zsh"))]

/-- Pattern `wget.*\|\s*(sh|bash|zsh)`. -/
def reWgetPipe : Re :=
  rseq [rstr "wget", anyStar, .ch '|', wsStar,
    Re.alt (rstr "sh") (Re.alt (rstr "bash") (rstr "zsh"))]

/-- Pattern `nc\s+-[el].*\s+/bin/(sh|bash)`. -/
def reNcShell : Re :=
  rseq [rstr "nc", wsPlus, .ch '-', .cls false ['e', 'l'] [], anyStar, wsPlus,
    rstr "/bin/", Re.alt (rstr "sh") (rstr "bash")]

/-- Pattern `python.*-c.*exec\(`. -/
def rePythonExec : Re :=
  rseq [rstr "python", anyStar, rstr "-c", anyStar, rstr "exec("]

/-- Pattern `eval\s*\(`. -/
def reEval : Re := rseq [rstr "eval", wsStar, .ch '(']

/-- Pattern `exec\s*\(`. -/
def reExec : Re := rseq [rstr "exec", wsStar, .ch '(']

/-- List `DANGEROUS_PATTERNS`: regex command rules (source order). -/
def DANGEROUS_PATTERNS : List (String × Re) :=
  [("rm\\s+-rf?\\s+/[^/\\s]*/?$", reRmRf),
   ("dd\\s+if=/dev/(zero|random|urandom)", reDdZero),
   ("find\\s+/.*-delete", reFindDelete),
   (">(.*)/dev/(sd[a-z]|hd[a-z])", reDiskWrite),
   ("curl.*\\|\\s*(sh|bash|zsh)", reCurlPipe),
   ("wget.*\\|\\s*(sh|bash|zsh)", reWgetPipe),
   ("nc\\s+-[el].*\\s+/bin/(sh|bash)", reNcShell),
   ("python.*-c.*exec\\(", rePythonExec),
   ("eval\\s*\\(", reEval),
   ("exec\\s*\\(", reExec)]

/-- Set `SENSITIVE_PATHS`: exact-match path rules (source-text order). -/
def SENSITIVE_PATHS : List String :=
  ["/etc/passwd", "/etc/shadow", "/etc/sudoers", "/root", "/boot", "/sys",
   "/proc/sys", "/dev", "/etc/ssh", "/home/*/.ssh", "~/.ssh", "/var/log",
   "/etc/hosts", "/etc/crontab", "/var/spool/cron"]

/-- List `SENSITIVE_PATH_PATTERNS`: regex path rules (source order). -/
def SENSITIVE_PATH_PATTERNS : List (String × Re) :=
  [("/etc/.*", rseq [rstr "/etc/", anyStar]),
   ("/root/.*", rseq [rstr "/root/", anyStar]),
   ("/boot/.*", rseq [rstr "/boot/", anyStar]),
   ("/sys/.*", rseq [rstr "/sys/", anyStar]),
   ("/proc/sys/.*", rseq [rstr "/proc/sys/", anyStar]),
   ("/dev/.*", rseq [rstr "/dev/", anyStar]),
   (".*/\\.ssh/.*", rseq [anyStar, rstr "/.ssh/", anyStar]),
   ("/var/log/.*", rseq [rstr "/var/log/", anyStar]),
   ("/var/spool/cron/.*", rseq [rstr "/var/spool/cron/", anyStar]),
   (".*\\.key$", endsRe ".key"),
   (".*\\.pem$", endsRe ".pem"),
   (".*\\.p12$", endsRe ".p12"),
   (".*\\.pfx$", endsRe ".pfx"),
   (".*password.*", containsRe "password"),
   (".*secret.*", containsRe "secret"),
   (".*token.*", containsRe "token")]

/-! ## JSON values, Python truthiness and `str(...)` -/

/-- The values a decoded JSON payload can hold (floats are not needed by
any rule or claim and are omitted). -/
inductive PyVal where
  | str : String → PyVal
  | int : Int → PyVal
  | bool : Bool → PyVal
  | null : PyVal
  | list : List PyVal → PyVal
  | dict : List (String × PyVal) → PyVal

/-- Python truthiness of a JSON value. -/
def pyTruthy : PyVal → Bool
  | .str s => !s.data.isEmpty
  | .int n => n != 0
  | .bool b => b
  | .null => false
  | .list xs => !xs.isEmpty
  | .dict kvs => !kvs.isEmpty

/-- Is the value a plain string? -/
def PyVal.isStr : PyVal → Bool
  | .str _ => true
  | _ => false

mutual

/-- Python `repr(...)` of a JSON value.  String quoting is modelled for
strings that contain no quote, backslash or non-printable characters,
which covers every value this development evaluates it on. -/
def pyRepr : PyVal → String
  | .str s => "\x27" ++ s ++ "\x27"
  | .int n => toString n
  | .bool b => if b then "True" else "False"
  | .null => "None"
  | .list xs => "[" ++ pyReprItems xs ++ "]"
  | .dict kvs => "\x7b" ++ pyReprPairs kvs ++ "\x7d"

/-- Comma-separated `repr` of list items. -/
def pyReprItems : List PyVal → String
  | [] => ""
  | [x] => pyRepr x
  | x :: rest => pyRepr x ++ ", " ++ pyReprItems rest

/-- Comma-separated `repr` of dict entries. -/
def pyReprPairs : List (String × PyVal) → String
  | [] => ""
  | [(k, v)] => "\x27" ++ k ++ "\x27: " ++ pyRepr v
  | (k, v) :: rest => "\x27" ++ k ++ "\x27: " ++ pyRepr v ++ ", " ++ pyReprPairs rest

end

/-- Python `str(...)` of a JSON value: the identity on strings, `repr`
elsewhere. -/
def pyToStr : PyVal → String
  | .str s => s
  | v => pyRepr v

/-- Lookup in a decoded JSON object.  `json.loads` keeps the last of
duplicate keys, so the lookup scans from the end. -/
def pyGet : List (String × PyVal) → String → Option PyVal
  | [], _ => none
  | (k, v) :: rest, key =>
    match pyGet rest key with
    | some w => some w
    | none => if k = key then some v else none

/-- Python `x == "lit"` for a JSON value `x` and a string literal. -/
def PyVal.isStrEq : PyVal → String → Bool
  | .str s, t => s == t
  | _, _ => false

/-! ## The Policy Evaluator -/

/-- A verdict: the `(is_safe, message)` pair `validate_tool_call` returns. -/
structure Verdict where
  allowed : Bool
  reason : String
deriving DecidableEq, Repr

/-- The faults the evaluation code can raise after a successful decode:
attribute errors from calling `.get` or `.lower` on a value of the wrong
shape.  The message approximates the Python exception text. -/
inductive PyErr where
  | attributeError : String → PyErr
deriving DecidableEq, Repr

/-- Python f-string rendering of an `Optional[str]`. -/
def optText : Option String → String
  | some s => s
  | none => "None"

/-- First exact command rule contained in the (lowered, stripped) command. -/
def scanExactCommands (subj : String) : List String → Option String
  | [] => none
  | rule :: rest =>
    if pyContains subj rule then some rule else scanExactCommands subj rest

/-- First regex rule matching the subject; `re.IGNORECASE` is modelled by
case-folding the subject (the patterns are ASCII). -/
def scanPatterns (subj : String) : List (String × Re) → Option String
  | [] => none
  | (txt, r) :: rest =>
    if pySearch r (pyLower subj) then some txt else scanPatterns subj rest

/-- Model of `check_dangerous_command(command)`, with the iteration order
of the exact-rule set made explicit (`dangerous_commands` ranges over the
permutations of `DANGEROUS_COMMANDS`).  The regex rules live in a Python
list, so their order is fixed by the source. -/
def check_dangerous_command_ord (dangerous_commands : List String)
    (command : String) : Bool × Option String :=
  let command_lower := pyStrip (pyLower command)
  match scanExactCommands command_lower dangerous_commands with
  | some dangerous_cmd => (true, some ("Dangerous command detected: " ++ dangerous_cmd))
  | none =>
    match scanPatterns command DANGEROUS_PATTERNS with
    | some p => (true, some ("Dangerous command pattern detected: " ++ p))
    | none => (false, none)

/-- Model of `check_dangerous_command(command)` at the source-text order. -/
def check_dangerous_command (command : String) : Bool × Option String :=
  check_dangerous_command_ord DANGEROUS_COMMANDS command

/-- One exact path rule test:
`rule.replace('*','') in path_str or path_str.startswith(rule.replace('/*',''))`. -/
def exactPathHit (path_str rule : String) : Bool :=
  pyContains path_str (removeStar rule) || pyStartsWith path_str (removeSlashStar rule)

/-- First exact path rule hitting the (lowered) path text. -/
def scanExactPaths (path_str : String) : List String → Option String
  | [] => none
  | rule :: rest =>
    if exactPathHit path_str rule then some rule else scanExactPaths path_str rest

/-- Model of `check_sensitive_path(path)`.  The source applies `str(...)` to its
argument, so it accepts any value, never raising. -/
def check_sensitive_path (path : PyVal) : Bool × Option String :=
  let path_str := pyLower (pyToStr path)
  match scanExactPaths path_str SENSITIVE_PATHS with
  | some sensitive_path => (true, some ("Access to sensitive path: " ++ sensitive_path))
  | none =>
    match scanPatterns path_str SENSITIVE_PATH_PATTERNS with
    | some p => (true, some ("Access to sensitive path pattern: " ++ p))
    | none => (false, none)

/-- Model of `parameters.get(key, dflt)`: raises an attribute error when
`parameters` is not an object. -/
def getParam (parameters : PyVal) (key : String) (dflt : PyVal) : Except PyErr PyVal :=
  match parameters with
  | .dict ps => .ok ((pyGet ps key).getD dflt)
  | _ => .error (.attributeError "object has no attribute get")

/-- Wrapper: `check_dangerous_command` as called on a raw parameter value:
`command.lower()` raises an attribute error on a non-string.  Takes the
exact-rule scan order like `check_dangerous_command_ord`. -/
def checkDangerousVal_ord (dangerous_commands : List String)
    (command : PyVal) : Except PyErr (Bool × Option String) :=
  match command with
  | .str s => .ok (check_dangerous_command_ord dangerous_commands s)
  | _ => .error (.attributeError "object has no attribute lower")

/-- The wrapper at the source-text order. -/
def checkDangerousVal (command : PyVal) : Except PyErr (Bool × Option String) :=
  checkDangerousVal_ord DANGEROUS_COMMANDS command

/-- The `Glob` branch loop over `[pattern, path]`. -/
def globCheck : List PyVal → Verdict
  | [] => ⟨true, "Operation allowed"⟩
  | p :: rest =>
    if pyTruthy p then
      match check_sensitive_path p with
      | (true, reason) =>
        ⟨false, "Blocked glob access to sensitive path: " ++ optText reason⟩
      | (false, _) => globCheck rest
    else globCheck rest

/-- Model of `validate_tool_call(tool_data)`: dispatch on the tool identifier and
apply the matching check.  Raises (models an uncaught Python exception)
when the payload is not an object, or when a branch calls `.get`/`.lower`
on a value of the wrong shape.  The exact command-rule scan order is a
parameter, as in `check_dangerous_command_ord`. -/
def validate_tool_call_ord (dangerous_commands : List String)
    (tool_data : PyVal) : Except PyErr Verdict :=
  match tool_data with
  | .dict td =>
    let tool_name := (pyGet td "tool").getD .null
    let parameters := (pyGet td "parameters").getD (.dict [])
    if tool_name.isStrEq "Bash" then
      match getParam parameters "command" (.str "") with
      | .error e => .error e
      | .ok command =>
        match checkDangerousVal_ord dangerous_commands command with
        | .error e => .error e
        | .ok (true, reason) =>
          .ok ⟨false, "Blocked dangerous Bash command: " ++ optText reason⟩
        | .ok (false, _) => .ok ⟨true, "Operation allowed"⟩
    else if tool_name.isStrEq "Read" || tool_name.isStrEq "Write" ||
        tool_name.isStrEq "Edit" || tool_name.isStrEq "MultiEdit" then
      match getParam parameters "file_path" (.str "") with
      | .error e => .error e
      | .ok file_path =>
        if pyTruthy file_path then
          match check_sensitive_path file_path with
          | (true, reason) =>
            .ok ⟨false, "Blocked access to sensitive file: " ++ optText reason⟩
          | (false, _) => .ok ⟨true, "Operation allowed"⟩
        else .ok ⟨true, "Operation allowed"⟩
    else if tool_name.isStrEq "Glob" then
      match getParam parameters "pattern" (.str "") with
      | .error e => .error e
      | .ok patternV =>
        match getParam parameters "path" (.str "") with
        | .error e => .error e
        | .ok pathV => .ok (globCheck [patternV, pathV])
    else if tool_name.isStrEq "Grep" then
      match getParam parameters "path" (.str "") with
      | .error e => .error e
      | .ok pathV =>
        if pyTruthy pathV then
          match check_sensitive_path pathV with
          | (true, reason) =>
            .ok ⟨false, "Blocked grep access to sensitive path: " ++ optText reason⟩
          | (false, _) => .ok ⟨true, "Operation allowed"⟩
        else .ok ⟨true, "Operation allowed"⟩
    else if tool_name.isStrEq "LS" then
      match getParam parameters "path" (.str "") with
      | .error e => .error e
      | .ok pathV =>
        if pyTruthy pathV then
          match check_sensitive_path pathV with
          | (true, reason) =>
            .ok ⟨false, "Blocked directory listing of sensitive path: " ++ optText reason⟩
          | (false, _) => .ok ⟨true, "Operation allowed"⟩
        else .ok ⟨true, "Operation allowed"⟩
    else .ok ⟨true, "Operation allowed"⟩
  | _ => .error (.attributeError "object has no attribute get")

/-- Model of `validate_tool_call(tool_data)` at the source-text order of
the exact command-rule set. -/
def validate_tool_call (tool_data : PyVal) : Except PyErr Verdict :=
  validate_tool_call_ord DANGEROUS_COMMANDS tool_data

/-! ## The process edge (`main`) -/

/-- The externally visible outcome of one run: the exit status and the
diagnostic line written to stderr, if any. -/
structure MainResult where
  exitCode : Nat
  stderrLine : Option String
deriving DecidableEq, Repr

/-- Model of `main()`, as a function of the decode result of the stdin payload.
A decode failure is reported and exits 1; a fault raised by the evaluation
is caught by the bare `except Exception`, reported, and exits 0; otherwise
the verdict decides: denial prints a `SECURITY BLOCK` line and exits 1,
allowance exits 0 silently. -/
def runMain (decoded : Except String PyVal) : MainResult :=
  match decoded with
  | .error e => ⟨1, some ("Error parsing hook input: " ++ e)⟩
  | .ok tool_data =>
    match validate_tool_call tool_data with
    | .ok ⟨true, _⟩ => ⟨0, none⟩
    | .ok ⟨false, message⟩ => ⟨1, some ("SECURITY BLOCK: " ++ message)⟩
    | .error (.attributeError m) => ⟨0, some ("Security hook error: " ++ m)⟩

/-! ## The three branches of the process-edge protocol -/

/-- Fail-closed branch: the payload did not decode; the decode error is
reported and the exit status is non-zero. -/
def decodeFailBranch (input : Except String PyVal) : Prop :=
  ∃ e, input = .error e ∧
    runMain input = ⟨1, some ("Error parsing hook input: " ++ e)⟩

/-- Fail-open branch: the payload decoded but evaluation raised; the fault
is reported and the exit status is zero. -/
def failOpenBranch (input : Except String PyVal) : Prop :=
  ∃ td m, input = .ok td ∧ validate_tool_call td = .error (.attributeError m) ∧
    runMain input = ⟨0, some ("Security hook error: " ++ m)⟩

/-- Normal branch: evaluation produced a verdict; denial reports and exits
non-zero, allowance exits zero silently. -/
def verdictBranch (input : Except String PyVal) : Prop :=
  ∃ td v, input = .ok td ∧ validate_tool_call td = .ok v ∧
    runMain input = if v.allowed then ⟨0, none⟩
      else ⟨1, some ("SECURITY BLOCK: " ++ v.reason)⟩

/-- The path-checked tools and the parameter key(s) each one extracts,
as in the dispatch of `validate_tool_call`. -/
def pathToolFields : List (String × String) :=
  [("Read", "file_path"), ("Write", "file_path"), ("Edit", "file_path"),
   ("MultiEdit", "file_path"), ("Glob", "pattern"), ("Glob", "path"),
   ("Grep", "path"), ("LS", "path")]

/-! ## Lemmas about the string primitives -/

theorem isPre_iff (n : List Char) : ∀ l, isPre n l = true ↔ ∃ t, l = n ++ t := by
  induction n with
  | nil => intro l; simp [isPre]
  | cons a as ih =>
    intro l
    cases l with
    | nil => simp [isPre]
    | cons b bs =>
      simp only [isPre, Bool.and_eq_true, decide_eq_true_eq, ih bs, List.cons_append,
        List.cons.injEq]
      constructor
      · rintro ⟨rfl, t, rfl⟩; exact ⟨t, rfl, rfl⟩
      · rintro ⟨t, rfl, rfl⟩; exact ⟨rfl, t, rfl⟩

theorem isSub_iff (n : List Char) : ∀ l, isSub n l = true ↔ ∃ p t, l = p ++ n ++ t := by
  intro l
  induction l with
  | nil =>
    simp only [isSub, isPre_iff]
    constructor
    · rintro ⟨t, h⟩; exact ⟨[], t, by simpa using h⟩
    · rintro ⟨p, t, h⟩
      rcases List.append_eq_nil.mp (List.append_eq_nil.mp h.symm).1 with ⟨rfl, rfl⟩
      exact ⟨t, by simpa using h⟩
  | cons c l ih =>
    simp only [isSub, Bool.or_eq_true, isPre_iff, ih]
    constructor
    · rintro (⟨t, h⟩ | ⟨p, t, rfl⟩)
      · exact ⟨[], t, by simpa using h⟩
      · exact ⟨c :: p, t, rfl⟩
    · rintro ⟨p, t, h⟩
      cases p with
      | nil => exact Or.inl ⟨t, by simpa using h⟩
      | cons x p =>
        rcases List.cons.injEq .. ▸ h with ⟨rfl, h2⟩
        right
        simp only [List.cons_append, List.cons.injEq] at h
        exact ⟨p, t, h.2⟩

theorem isSuf_iff (n l : List Char) : isSuf n l = true ↔ ∃ p, l = p ++ n := by
  unfold isSuf
  rw [isPre_iff]
  constructor
  · rintro ⟨t, h⟩
    refine ⟨t.reverse, ?_⟩
    have := congrArg List.reverse h
    simpa using this
  · rintro ⟨p, rfl⟩
    exact ⟨p.reverse, by simp⟩

theorem isSub_reverse (n l : List Char) :
    isSub n.reverse l.reverse = true ↔ isSub n l = true := by
  rw [isSub_iff, isSub_iff]
  constructor
  · rintro ⟨p, t, h⟩
    have := congrArg List.reverse h
    simp only [List.reverse_reverse, List.reverse_append] at this
    exact ⟨t.reverse, p.reverse, by simpa [List.append_assoc] using this⟩
  · rintro ⟨p, t, rfl⟩
    exact ⟨t.reverse, p.reverse, by simp⟩

theorem sub_dropWhile (c : Char) (n l : List Char) (hc : isPyWs c = false)
    (h : isSub (c :: n) l = true) : isSub (c :: n) (l.dropWhile isPyWs) = true := by
  induction l with
  | nil =>
    rw [isSub_iff] at h
    rcases h with ⟨p, t, h⟩
    exact absurd h.symm (by simp)
  | cons a l ih =>
    by_cases ha : isPyWs a = true
    · rw [List.dropWhile_cons_of_pos ha]
      apply ih
      rw [isSub_iff] at h
      rcases h with ⟨p, t, h⟩
      cases p with
      | nil =>
        simp only [List.nil_append, List.cons_append, List.cons.injEq] at h
        rw [h.1] at ha
        rw [hc] at ha
        cases ha
      | cons x p =>
        simp only [List.cons_append, List.cons.injEq] at h
        rw [isSub_iff]
        exact ⟨p, t, h.2⟩
    · rw [List.dropWhile_cons_of_neg ha]
      exact h

theorem sub_strip (c d : Char) (mid l : List Char) (hc : isPyWs c = false)
    (hd : isPyWs d = false) (h : isSub (c :: (mid ++ [d])) l = true) :
    isSub (c :: (mid ++ [d])) (stripData l) = true := by
  have h1 : isSub (c :: (mid ++ [d])) (l.dropWhile isPyWs) = true :=
    sub_dropWhile c _ l hc h
  have hrev : (c :: (mid ++ [d])).reverse = d :: (mid.reverse ++ [c]) := by
    simp
  have h2 : isSub (d :: (mid.reverse ++ [c])) (l.dropWhile isPyWs).reverse = true := by
    rw [← hrev]
    exact (isSub_reverse _ _).mpr h1
  have h3 := sub_dropWhile d _ _ hd h2
  unfold stripData
  rw [← isSub_reverse]
  simpa [hrev] using h3

/-! ## Lemmas about the regular-expression evaluator -/

theorem searchAux_of_tail (r : Re) (p t : List Char) (h : Re.mres r t ≠ []) :
    searchAux r (p ++ t) = true := by
  induction p with
  | nil =>
    cases t with
    | nil => simpa [searchAux, List.isEmpty_iff] using h
    | cons x rest => simp [searchAux, List.isEmpty_iff, h]
  | cons c p ih =>
    show searchAux r (c :: (p ++ t)) = true
    simp [searchAux, ih]

theorem mem_mres_star_self (a : Re) (xs : List Char) : xs ∈ Re.mres (.star a) xs := by
  show xs ∈ starMres (fun ys => a.mres ys) xs.length xs
  cases h : xs.length with
  | zero => simp [starMres]
  | succ n => simp [starMres]

theorem mem_mres_seq (ys : List Char) {a b : Re} {xs zs : List Char}
    (h1 : ys ∈ Re.mres a xs) (h2 : zs ∈ Re.mres b ys) :
    zs ∈ Re.mres (.seq a b) xs := by
  show zs ∈ (Re.mres a xs).flatMap (fun ys => b.mres ys)
  exact List.mem_flatMap.mpr ⟨ys, h1, h2⟩

theorem mres_rstrL_append (w t : List Char) : t ∈ Re.mres (rstrL w) (w ++ t) := by
  induction w with
  | nil => simp [rstrL, Re.mres]
  | cons c w ih =>
    show t ∈ Re.mres (.seq (.ch c) (rstrL w)) (c :: (w ++ t))
    apply mem_mres_seq (w ++ t)
    · simp [Re.mres]
    · exact ih

theorem mem_mres_eps (xs : List Char) : xs ∈ Re.mres .eps xs := by
  simp [Re.mres]

theorem search_contains (w : String) (p t l : List Char)
    (h : l = p ++ w.data ++ t) : searchAux (containsRe w) l = true := by
  subst h
  rw [List.append_assoc]
  apply searchAux_of_tail (containsRe w) p (w.data ++ t)
  apply List.ne_nil_of_mem (a := t)
  show t ∈ Re.mres (.seq anyStar (.seq (rstr w) (.seq anyStar .eps))) (w.data ++ t)
  apply mem_mres_seq (w.data ++ t)
  · exact mem_mres_star_self _ _
  apply mem_mres_seq t
  · exact mres_rstrL_append w.data t
  apply mem_mres_seq t
  · exact mem_mres_star_self _ _
  · exact mem_mres_eps t

/-! ## Lemmas about the rule scans -/

theorem scanPatterns_isSome {txt : String} {r : Re} (subj : String)
    (pats : List (String × Re)) (hmem : (txt, r) ∈ pats)
    (hsearch : pySearch r (pyLower subj) = true) :
    (scanPatterns subj pats).isSome = true := by
  induction pats with
  | nil => cases hmem
  | cons hd rest ih =>
    obtain ⟨t0, r0⟩ := hd
    by_cases h0 : pySearch r0 (pyLower subj) = true
    · simp [scanPatterns, h0]
    · rcases List.mem_cons.mp hmem with heq | hrest
      · rw [Prod.mk.injEq] at heq
        exact absurd (heq.2 ▸ hsearch) h0
      · simpa [scanPatterns, h0] using ih hrest

theorem scanExactCommands_isSome {rule : String} (subj : String) (rules : List String)
    (hmem : rule ∈ rules) (hhit : pyContains subj rule = true) :
    (scanExactCommands subj rules).isSome = true := by
  induction rules with
  | nil => cases hmem
  | cons r0 rest ih =>
    by_cases h0 : pyContains subj r0 = true
    · simp [scanExactCommands, h0]
    · rcases List.mem_cons.mp hmem with heq | hrest
      · exact absurd (heq ▸ hhit) h0
      · simpa [scanExactCommands, h0] using ih hrest

theorem scanExactCommands_sound (subj : String) (rules : List String) (r : String)
    (h : scanExactCommands subj rules = some r) :
    r ∈ rules ∧ pyContains subj r = true := by
  induction rules with
  | nil => cases h
  | cons r0 rest ih =>
    by_cases h0 : pyContains subj r0 = true
    · have : r0 = r := by simpa [scanExactCommands, h0] using h
      subst this
      exact ⟨List.mem_cons_self r0 rest, h0⟩
    · have h1 : scanExactCommands subj rest = some r := by
        simpa [scanExactCommands, h0] using h
      obtain ⟨hm, hc⟩ := ih h1
      exact ⟨List.mem_cons_of_mem r0 hm, hc⟩

theorem scanExactPaths_isSome {rule : String} (subj : String) (rules : List String)
    (hmem : rule ∈ rules) (hhit : exactPathHit subj rule = true) :
    (scanExactPaths subj rules).isSome = true := by
  induction rules with
  | nil => cases hmem
  | cons r0 rest ih =>
    by_cases h0 : exactPathHit subj r0 = true
    · simp [scanExactPaths, h0]
    · rcases List.mem_cons.mp hmem with heq | hrest
      · exact absurd (heq ▸ hhit) h0
      · simpa [scanExactPaths, h0] using ih hrest

theorem check_sensitive_path_fst_of_pattern {txt : String} {r : Re} (v : PyVal)
    (hmem : (txt, r) ∈ SENSITIVE_PATH_PATTERNS)
    (hsearch : pySearch r (pyLower (pyLower (pyToStr v))) = true) :
    (check_sensitive_path v).fst = true := by
  unfold check_sensitive_path
  cases hex : scanExactPaths (pyLower (pyToStr v)) SENSITIVE_PATHS with
  | some rule => simp [hex]
  | none =>
    have := scanPatterns_isSome (pyLower (pyToStr v)) SENSITIVE_PATH_PATTERNS hmem hsearch
    cases hp : scanPatterns (pyLower (pyToStr v)) SENSITIVE_PATH_PATTERNS with
    | some p => simp [hex, hp]
    | none => rw [hp] at this; cases this

theorem check_sensitive_path_fst_of_exact {rule : String} (v : PyVal)
    (hmem : rule ∈ SENSITIVE_PATHS)
    (hhit : exactPathHit (pyLower (pyToStr v)) rule = true) :
    (check_sensitive_path v).fst = true := by
  unfold check_sensitive_path
  have := scanExactPaths_isSome (pyLower (pyToStr v)) SENSITIVE_PATHS hmem hhit
  cases hex : scanExactPaths (pyLower (pyToStr v)) SENSITIVE_PATHS with
  | some r => simp [hex]
  | none => rw [hex] at this; cases this

/-! ## Dispatch: a hit on the designated path field of a path-type tool
denies the invocation -/

theorem validate_deny_of_path_field (t k : String) (hmem : (t, k) ∈ pathToolFields)
    (td ps : List (String × PyVal)) (s : String)
    (htool : pyGet td "tool" = some (.str t))
    (hparams : pyGet td "parameters" = some (.dict ps))
    (hfield : pyGet ps k = some (.str s))
    (hne : s.data ≠ [])
    (hsens : (check_sensitive_path (.str s)).fst = true) :
    ∃ v : Verdict, validate_tool_call (.dict td) = .ok v ∧ v.allowed = false := by
  have htr : pyTruthy (.str s) = true := by
    simp [pyTruthy, hne]
  cases hcsp : check_sensitive_path (.str s) with
  | mk fst snd =>
  rw [hcsp] at hsens
  dsimp at hsens
  subst hsens
  simp only [pathToolFields, List.mem_cons, List.not_mem_nil, or_false,
    Prod.mk.injEq] at hmem
  rcases hmem with hpair | hpair | hpair | hpair | hpair | hpair | hpair | hpair <;>
    obtain ⟨rfl, rfl⟩ := hpair
  · exact ⟨⟨false, "Blocked access to sensitive file: " ++ optText snd⟩,
      by simp [validate_tool_call, validate_tool_call_ord, htool, hparams, hfield, PyVal.isStrEq, getParam,
        htr, hcsp], rfl⟩
  · exact ⟨⟨false, "Blocked access to sensitive file: " ++ optText snd⟩,
      by simp [validate_tool_call, validate_tool_call_ord, htool, hparams, hfield, PyVal.isStrEq, getParam,
        htr, hcsp], rfl⟩
  · exact ⟨⟨false, "Blocked access to sensitive file: " ++ optText snd⟩,
      by simp [validate_tool_call, validate_tool_call_ord, htool, hparams, hfield, PyVal.isStrEq, getParam,
        htr, hcsp], rfl⟩
  · exact ⟨⟨false, "Blocked access to sensitive file: " ++ optText snd⟩,
      by simp [validate_tool_call, validate_tool_call_ord, htool, hparams, hfield, PyVal.isStrEq, getParam,
        htr, hcsp], rfl⟩
  · exact ⟨⟨false, "Blocked glob access to sensitive path: " ++ optText snd⟩,
      by simp [validate_tool_call, validate_tool_call_ord, htool, hparams, hfield, PyVal.isStrEq, getParam,
        globCheck, htr, hcsp], rfl⟩
  · by_cases hw : pyTruthy ((pyGet ps "pattern").getD (.str "")) = true
    · cases hcw : check_sensitive_path ((pyGet ps "pattern").getD (.str "")) with
      | mk wf ws =>
        cases wf with
        | true =>
          exact ⟨⟨false, "Blocked glob access to sensitive path: " ++ optText ws⟩,
            by simp [validate_tool_call, validate_tool_call_ord, htool, hparams, hfield, PyVal.isStrEq,
              getParam, globCheck, hw, hcw, htr, hcsp], rfl⟩
        | false =>
          exact ⟨⟨false, "Blocked glob access to sensitive path: " ++ optText snd⟩,
            by simp [validate_tool_call, validate_tool_call_ord, htool, hparams, hfield, PyVal.isStrEq,
              getParam, globCheck, hw, hcw, htr, hcsp], rfl⟩
    · exact ⟨⟨false, "Blocked glob access to sensitive path: " ++ optText snd⟩,
        by simp [validate_tool_call, validate_tool_call_ord, htool, hparams, hfield, PyVal.isStrEq,
          getParam, globCheck, hw, htr, hcsp], rfl⟩
  · exact ⟨⟨false, "Blocked grep access to sensitive path: " ++ optText snd⟩,
      by simp [validate_tool_call, validate_tool_call_ord, htool, hparams, hfield, PyVal.isStrEq, getParam,
        htr, hcsp], rfl⟩
  · exact ⟨⟨false, "Blocked directory listing of sensitive path: " ++ optText snd⟩,
      by simp [validate_tool_call, validate_tool_call_ord, htool, hparams, hfield, PyVal.isStrEq, getParam,
        htr, hcsp], rfl⟩

/-! ## Auxiliary lemmas for the claim theorems -/

theorem data_ne_of_parts (s : String) (n : List Char) (hn : n ≠ []) (p t : List Char)
    (hp : (pyLower s).data = p ++ n ++ t) : s.data ≠ [] := by
  intro h
  have : (pyLower s).data = [] := by
    show s.data.map lowerChar = []
    rw [h]; rfl
  rw [this] at hp
  rcases List.append_eq_nil.mp hp.symm with ⟨h1, -⟩
  exact hn (List.append_eq_nil.mp h1).2

theorem ends_hit (w : String) (hwmap : w.data.map lowerChar = w.data)
    (hmres : Re.mres (endsRe w) w.data ≠ [])
    (s : String) (p : List Char) (hp : (pyLower s).data = p ++ w.data) :
    pySearch (endsRe w) (pyLower (pyLower s)) = true := by
  show searchAux (endsRe w) (pyLower (pyLower s)).data = true
  have hstep : (pyLower (pyLower s)).data = p.map lowerChar ++ w.data := by
    show ((pyLower s).data).map lowerChar = _
    rw [hp, List.map_append, hwmap]
  rw [hstep]
  exact searchAux_of_tail _ _ _ hmres

theorem contains_hit (w : String) (hwmap : w.data.map lowerChar = w.data)
    (s : String) (p t : List Char) (hp : (pyLower s).data = p ++ w.data ++ t) :
    pySearch (containsRe w) (pyLower (pyLower s)) = true := by
  show searchAux (containsRe w) (pyLower (pyLower s)).data = true
  have hstep : (pyLower (pyLower s)).data = p.map lowerChar ++ w.data ++ t.map lowerChar := by
    show ((pyLower s).data).map lowerChar = _
    rw [hp]
    simp [List.map_append, hwmap]
  exact search_contains w _ _ _ hstep

/-! ## Claim theorems -/

/-- C2 counterexample: the source iterates `DANGEROUS_COMMANDS` as a
Python set, in an unspecified per-process order.  Under the admissible
order that visits `mkfs` first, the command `mkfs && rm -rf /` — which
contains `rm -rf /` — is denied with a reason naming `mkfs`, not the
root-wipe rule, so the claim's reason clause is not a property of the
program. -/
theorem c2_counterexample :
    mkfsFirstOrder.Perm DANGEROUS_COMMANDS ∧
    pyContains (pyLower "mkfs && rm -rf /") "rm -rf /" = true ∧
    validate_tool_call_ord mkfsFirstOrder (.dict [("tool", .str "Bash"),
      ("parameters", .dict [("command", .str "mkfs && rm -rf /")])]) =
      .ok ⟨false, "Blocked dangerous Bash command: Dangerous command detected: mkfs"⟩ :=
  ⟨by decide, by decide, rfl⟩

/-- C2 (amended): for every Bash invocation whose command string contains
`rm -rf /` (in any letter case, with any trailing path or none), and under
every per-process iteration order of the exact-rule set, the evaluator
denies the invocation, with a reason naming an exact dangerous-command
rule contained in the lowered, stripped command; whenever the root-wipe
rule is the only such rule, the reason names the root-wipe rule. -/
theorem c2_root_wipe_denied (order : List String)
    (hord : order.Perm DANGEROUS_COMMANDS)
    (td ps : List (String × PyVal)) (cmd : String)
    (htool : pyGet td "tool" = some (.str "Bash"))
    (hparams : pyGet td "parameters" = some (.dict ps))
    (hcmd : pyGet ps "command" = some (.str cmd))
    (hsub : pyContains (pyLower cmd) "rm -rf /" = true) :
    ∃ rule, rule ∈ DANGEROUS_COMMANDS ∧
      pyContains (pyStrip (pyLower cmd)) rule = true ∧
      validate_tool_call_ord order (.dict td) =
        .ok ⟨false, "Blocked dangerous Bash command: Dangerous command detected: " ++ rule⟩ ∧
      ((∀ r2 ∈ DANGEROUS_COMMANDS, pyContains (pyStrip (pyLower cmd)) r2 = true →
          r2 = "rm -rf /") → rule = "rm -rf /") := by
  have hsplit : ("rm -rf /" : String).data = 'r' :: (['m', ' ', '-', 'r', 'f', ' '] ++ ['/']) := by
    decide
  have hstr : pyContains (pyStrip (pyLower cmd)) "rm -rf /" = true := by
    unfold pyContains at hsub ⊢
    rw [hsplit] at hsub ⊢
    show isSub _ (stripData (pyLower cmd).data) = true
    exact sub_strip 'r' '/' _ _ (by decide) (by decide) hsub
  have hmemord : "rm -rf /" ∈ order := hord.mem_iff.mpr (by decide)
  have hsome : (scanExactCommands (pyStrip (pyLower cmd)) order).isSome = true :=
    scanExactCommands_isSome _ order hmemord hstr
  obtain ⟨r, hr⟩ := Option.isSome_iff_exists.mp hsome
  obtain ⟨hrmem, hrcont⟩ := scanExactCommands_sound _ order r hr
  have hrmemD : r ∈ DANGEROUS_COMMANDS := hord.mem_iff.mp hrmem
  have hcd : check_dangerous_command_ord order cmd =
      (true, some ("Dangerous command detected: " ++ r)) := by
    simp only [check_dangerous_command_ord, hr]
  have hval : validate_tool_call_ord order (.dict td) =
      .ok ⟨false, "Blocked dangerous Bash command: " ++
        ("Dangerous command detected: " ++ r)⟩ := by
    simp [validate_tool_call_ord, htool, hparams, hcmd, PyVal.isStrEq, getParam,
      checkDangerousVal_ord, hcd, optText]
  refine ⟨r, hrmemD, hrcont, ?_, fun huniq => huniq r hrmemD hrcont⟩
  rw [hval]
  rfl

/-- C2 witness: the amended theorem applied to `Bash,
command = "RM -rf /tmp"` under the reversed iteration order — the root-wipe
rule is the only exact rule that command contains, so the last conjunct
forces the reason to name it. -/
theorem c2_root_wipe_denied_witness :
    ∃ rule, rule ∈ DANGEROUS_COMMANDS ∧
      pyContains (pyStrip (pyLower "RM -rf /tmp")) rule = true ∧
      validate_tool_call_ord DANGEROUS_COMMANDS.reverse
        (.dict [("tool", .str "Bash"),
          ("parameters", .dict [("command", .str "RM -rf /tmp")])]) =
        .ok ⟨false, "Blocked dangerous Bash command: Dangerous command detected: " ++ rule⟩ ∧
      ((∀ r2 ∈ DANGEROUS_COMMANDS,
          pyContains (pyStrip (pyLower "RM -rf /tmp")) r2 = true → r2 = "rm -rf /") →
        rule = "rm -rf /") :=
  c2_root_wipe_denied DANGEROUS_COMMANDS.reverse DANGEROUS_COMMANDS.reverse_perm
    [("tool", .str "Bash"), ("parameters", .dict [("command", .str "RM -rf /tmp")])]
    [("command", .str "RM -rf /tmp")] "RM -rf /tmp" rfl rfl rfl (by decide)

/-- C3: for every path-checked invocation (file read/write/edit/multi-edit,
glob, grep, directory listing) whose subject path string ends in `.pem`,
`.key`, `.p12` or `.pfx` in any letter case, regardless of the containing
directory, the evaluator denies the invocation. -/
theorem c3_key_material_denied (t k : String) (hmem : (t, k) ∈ pathToolFields)
    (td ps : List (String × PyVal)) (s : String)
    (htool : pyGet td "tool" = some (.str t))
    (hparams : pyGet td "parameters" = some (.dict ps))
    (hfield : pyGet ps k = some (.str s))
    (hsuf : (pyEndsWith (pyLower s) ".pem" || pyEndsWith (pyLower s) ".key" ||
             pyEndsWith (pyLower s) ".p12" || pyEndsWith (pyLower s) ".pfx") = true) :
    ∃ v : Verdict, validate_tool_call (.dict td) = .ok v ∧ v.allowed = false := by
  simp only [Bool.or_eq_true] at hsuf
  have core : ∀ (w txt : String), (txt, endsRe w) ∈ SENSITIVE_PATH_PATTERNS →
      w.data ≠ [] → w.data.map lowerChar = w.data → Re.mres (endsRe w) w.data ≠ [] →
      pyEndsWith (pyLower s) w = true →
      ∃ v : Verdict, validate_tool_call (.dict td) = .ok v ∧ v.allowed = false := by
    intro w txt hpat hwne hwmap hmres hend
    unfold pyEndsWith at hend
    rcases (isSuf_iff _ _).mp hend with ⟨p, hp⟩
    have hne : s.data ≠ [] := by
      have : (pyLower s).data = p ++ w.data ++ [] := by simpa using hp
      exact data_ne_of_parts s w.data hwne p [] this
    have hsens : (check_sensitive_path (.str s)).fst = true :=
      check_sensitive_path_fst_of_pattern (.str s) hpat
        (ends_hit w hwmap hmres s p hp)
    exact validate_deny_of_path_field t k hmem td ps s htool hparams hfield hne hsens
  rcases hsuf with ((h | h) | h) | h
  · exact core ".pem" ".*\\.pem$" (by decide) (by decide) (by decide) (by decide) h
  · exact core ".key" ".*\\.key$" (by decide) (by decide) (by decide) (by decide) h
  · exact core ".p12" ".*\\.p12$" (by decide) (by decide) (by decide) (by decide) h
  · exact core ".pfx" ".*\\.pfx$" (by decide) (by decide) (by decide) (by decide) h

/-- C3 witness: the theorem applied to a grep over `/Home/User/Cert.PEM`. -/
theorem c3_key_material_denied_witness :
    ∃ v : Verdict, validate_tool_call (.dict [("tool", .str "Grep"),
      ("parameters", .dict [("path", .str "/Home/User/Cert.PEM")])]) = .ok v ∧
      v.allowed = false :=
  c3_key_material_denied "Grep" "path" (by decide)
    [("tool", .str "Grep"), ("parameters", .dict [("path", .str "/Home/User/Cert.PEM")])]
    [("path", .str "/Home/User/Cert.PEM")] "/Home/User/Cert.PEM"
    rfl rfl rfl (by decide)

/-- C4: for every path-checked invocation whose subject path string
contains `password`, `secret` or `token` in any letter case, anywhere in
the path, the evaluator denies the invocation. -/
theorem c4_secret_word_denied (t k : String) (hmem : (t, k) ∈ pathToolFields)
    (td ps : List (String × PyVal)) (s : String)
    (htool : pyGet td "tool" = some (.str t))
    (hparams : pyGet td "parameters" = some (.dict ps))
    (hfield : pyGet ps k = some (.str s))
    (hsub : (pyContains (pyLower s) "password" || pyContains (pyLower s) "secret" ||
             pyContains (pyLower s) "token") = true) :
    ∃ v : Verdict, validate_tool_call (.dict td) = .ok v ∧ v.allowed = false := by
  simp only [Bool.or_eq_true] at hsub
  have core : ∀ (w txt : String), (txt, containsRe w) ∈ SENSITIVE_PATH_PATTERNS →
      w.data ≠ [] → w.data.map lowerChar = w.data →
      pyContains (pyLower s) w = true →
      ∃ v : Verdict, validate_tool_call (.dict td) = .ok v ∧ v.allowed = false := by
    intro w txt hpat hwne hwmap hcont
    unfold pyContains at hcont
    rcases (isSub_iff _ _).mp hcont with ⟨p, u, hp⟩
    have hne : s.data ≠ [] := data_ne_of_parts s w.data hwne p u hp
    have hsens : (check_sensitive_path (.str s)).fst = true :=
      check_sensitive_path_fst_of_pattern (.str s) hpat
        (contains_hit w hwmap s p u hp)
    exact validate_deny_of_path_field t k hmem td ps s htool hparams hfield hne hsens
  rcases hsub with (h | h) | h
  · exact core "password" ".*password.*" (by decide) (by decide) (by decide) h
  · exact core "secret" ".*secret.*" (by decide) (by decide) (by decide) h
  · exact core "token" ".*token.*" (by decide) (by decide) (by decide) h

/-- C4 witness: the theorem applied to a read of `/tmp/password_hint.txt`. -/
theorem c4_secret_word_denied_witness :
    ∃ v : Verdict, validate_tool_call (.dict [("tool", .str "Read"),
      ("parameters", .dict [("file_path", .str "/tmp/password_hint.txt")])]) = .ok v ∧
      v.allowed = false :=
  c4_secret_word_denied "Read" "file_path" (by decide)
    [("tool", .str "Read"), ("parameters", .dict [("file_path", .str "/tmp/password_hint.txt")])]
    [("file_path", .str "/tmp/password_hint.txt")] "/tmp/password_hint.txt"
    rfl rfl rfl (by decide)

/-- C5: for every invocation whose tool identifier is none of the
recognized kinds (`Bash`, `Read`, `Write`, `Edit`, `MultiEdit`, `Glob`,
`Grep`, `LS`), the evaluator allows unconditionally, whatever the
parameter mapping holds. -/
theorem c5_unknown_tool_allowed (td : List (String × PyVal))
    (h : (((pyGet td "tool").getD .null).isStrEq "Bash" ||
          ((pyGet td "tool").getD .null).isStrEq "Read" ||
          ((pyGet td "tool").getD .null).isStrEq "Write" ||
          ((pyGet td "tool").getD .null).isStrEq "Edit" ||
          ((pyGet td "tool").getD .null).isStrEq "MultiEdit" ||
          ((pyGet td "tool").getD .null).isStrEq "Glob" ||
          ((pyGet td "tool").getD .null).isStrEq "Grep" ||
          ((pyGet td "tool").getD .null).isStrEq "LS") = false) :
    validate_tool_call (.dict td) = .ok ⟨true, "Operation allowed"⟩ := by
  simp only [Bool.or_eq_false_iff] at h
  obtain ⟨⟨⟨⟨⟨⟨⟨h1, h2⟩, h3⟩, h4⟩, h5⟩, h6⟩, h7⟩, h8⟩ := h
  simp [validate_tool_call, validate_tool_call_ord, h1, h2, h3, h4, h5, h6, h7, h8]

/-- C5 witness: the theorem applied to an unrecognized tool `WebFetch`
carrying a hostile-looking parameter mapping. -/
theorem c5_unknown_tool_allowed_witness :
    validate_tool_call (.dict [("tool", .str "WebFetch"),
      ("parameters", .dict [("command", .str "rm -rf /"),
        ("file_path", .str "/etc/shadow")])]) = .ok ⟨true, "Operation allowed"⟩ :=
  c5_unknown_tool_allowed [("tool", .str "WebFetch"),
    ("parameters", .dict [("command", .str "rm -rf /"),
      ("file_path", .str "/etc/shadow")])] (by decide)

/-- C7: a Bash invocation whose `command` field is absent or the empty
string is allowed (the empty subject matches no exact rule and no regex
rule). -/
theorem c7_empty_command_allowed (td ps : List (String × PyVal))
    (htool : pyGet td "tool" = some (.str "Bash"))
    (hparams : pyGet td "parameters" = none ∨ pyGet td "parameters" = some (.dict ps))
    (hcmd : pyGet ps "command" = none ∨ pyGet ps "command" = some (.str "")) :
    validate_tool_call (.dict td) = .ok ⟨true, "Operation allowed"⟩ := by
  have hcd : check_dangerous_command_ord DANGEROUS_COMMANDS "" = (false, none) := by decide
  rcases hparams with hp | hp <;> rcases hcmd with hc | hc <;>
    simp [validate_tool_call, validate_tool_call_ord, htool, hp, hc, PyVal.isStrEq, getParam, pyGet,
      checkDangerousVal, checkDangerousVal_ord, hcd]

/-- C7 witness: the theorem applied to a Bash invocation with an empty
parameter mapping (so `command` is absent). -/
theorem c7_empty_command_allowed_witness :
    validate_tool_call (.dict [("tool", .str "Bash"), ("parameters", .dict [])]) =
      .ok ⟨true, "Operation allowed"⟩ :=
  c7_empty_command_allowed [("tool", .str "Bash"), ("parameters", .dict [])] []
    rfl (Or.inr rfl) (Or.inl rfl)

/-- C9: Bash commands are checked only against the command rules, never
the path rules: `cat /etc/shadow` matches no exact command rule and no
command regex and is allowed, while the same path handed to the `Read`
tool is denied by the exact path rule `/etc/shadow`. -/
theorem c9_bash_reads_sensitive_file_allowed :
    check_dangerous_command "cat /etc/shadow" = (false, none) ∧
    validate_tool_call (.dict [("tool", .str "Bash"),
      ("parameters", .dict [("command", .str "cat /etc/shadow")])]) =
      .ok ⟨true, "Operation allowed"⟩ ∧
    validate_tool_call (.dict [("tool", .str "Read"),
      ("parameters", .dict [("file_path", .str "/etc/shadow")])]) =
      .ok ⟨false, "Blocked access to sensitive file: Access to sensitive path: /etc/shadow"⟩ :=
  ⟨rfl, rfl, rfl⟩

/-- C10 counterexample: the path `/x/home/*/.ssh` contains the exact rule
string `/home/*/.ssh` verbatim, yet a `Read` of it is allowed — the code
tests the rule with its `*` characters removed, not the rule as written. -/
theorem c10_counterexample :
    ("/home/*/.ssh" ∈ SENSITIVE_PATHS) ∧
    pyContains (pyLower "/x/home/*/.ssh") "/home/*/.ssh" = true ∧
    validate_tool_call (.dict [("tool", .str "Read"),
      ("parameters", .dict [("file_path", .str "/x/home/*/.ssh")])]) =
      .ok ⟨true, "Operation allowed"⟩ :=
  ⟨by decide, by decide, rfl⟩

/-- C10 (amended): exact path rules are tested as unanchored substrings of
the case-folded path with their `*` characters removed, so any path-checked
invocation whose path contains such a stripped rule string anywhere — not
only as a leading directory — is denied (for the 14 rules without a
wildcard the stripped rule is the rule as written, e.g. `/dev`, `/root`). -/
theorem c10_exact_rules_unanchored (t k : String) (hmem : (t, k) ∈ pathToolFields)
    (td ps : List (String × PyVal)) (s rule : String)
    (hrule : rule ∈ SENSITIVE_PATHS)
    (htool : pyGet td "tool" = some (.str t))
    (hparams : pyGet td "parameters" = some (.dict ps))
    (hfield : pyGet ps k = some (.str s))
    (hsub : pyContains (pyLower s) (removeStar rule) = true) :
    ∃ v : Verdict, validate_tool_call (.dict td) = .ok v ∧ v.allowed = false := by
  have hne0 : ∀ r ∈ SENSITIVE_PATHS, (removeStar r).data ≠ [] := by decide
  have hsub0 := hsub
  unfold pyContains at hsub0
  rcases (isSub_iff _ _).mp hsub0 with ⟨p, u, hp⟩
  have hne : s.data ≠ [] := data_ne_of_parts s (removeStar rule).data (hne0 rule hrule) p u hp
  have hhit : exactPathHit (pyLower s) rule = true := by
    simp [exactPathHit, hsub]
  have hsens : (check_sensitive_path (.str s)).fst = true :=
    check_sensitive_path_fst_of_exact (.str s) hrule hhit
  exact validate_deny_of_path_field t k hmem td ps s htool hparams hfield hne hsens

/-- C10 witness: the amended theorem applied to the claim's own example,
an `Edit` of `/home/user/dev/notes.txt`, denied because it contains the
rule string `/dev`. -/
theorem c10_exact_rules_unanchored_witness :
    ∃ v : Verdict, validate_tool_call (.dict [("tool", .str "Edit"),
      ("parameters", .dict [("file_path", .str "/home/user/dev/notes.txt")])]) = .ok v ∧
      v.allowed = false :=
  c10_exact_rules_unanchored "Edit" "file_path" (by decide)
    [("tool", .str "Edit"),
      ("parameters", .dict [("file_path", .str "/home/user/dev/notes.txt")])]
    [("file_path", .str "/home/user/dev/notes.txt")] "/home/user/dev/notes.txt" "/dev"
    (by decide) rfl rfl rfl (by decide)

/-- C6 counterexample: a `Read` whose `file_path` is the non-string JSON
array `["password"]` is denied (the code coerces the value with `str(...)`
and checks the text `['password']`), while the same invocation with the
field absent is allowed — so a present non-string field is not treated as
absent. -/
theorem c6_counterexample :
    validate_tool_call (.dict [("tool", .str "Read"),
      ("parameters", .dict [("file_path", .list [.str "password"])])]) =
      .ok ⟨false,
        "Blocked access to sensitive file: Access to sensitive path pattern: .*password.*"⟩ ∧
    validate_tool_call (.dict [("tool", .str "Read"), ("parameters", .dict [])]) =
      .ok ⟨true, "Operation allowed"⟩ :=
  ⟨rfl, rfl⟩

/-- The shape shared by every single-field path branch of
`validate_tool_call`: the verdict exists, never raises, and denies exactly
when the field value is truthy and its text is sensitive. -/
theorem branchVerdict_spec (msg : String) (v : PyVal) :
    ∃ verd : Verdict,
      (if pyTruthy v then
        match check_sensitive_path v with
        | (true, reason) =>
          Except.ok (ε := PyErr) (⟨false, msg ++ optText reason⟩ : Verdict)
        | (false, _) => .ok ⟨true, "Operation allowed"⟩
       else .ok ⟨true, "Operation allowed"⟩) = .ok verd ∧
      (verd.allowed = false ↔ (pyTruthy v = true ∧ (check_sensitive_path v).fst = true)) := by
  by_cases ht : pyTruthy v = true
  · cases hc : check_sensitive_path v with
    | mk f r =>
      cases f
      · exact ⟨⟨true, "Operation allowed"⟩, by simp [ht, hc], by simp [ht, hc]⟩
      · exact ⟨⟨false, msg ++ optText r⟩, by simp [ht, hc], by simp [ht, hc]⟩
  · exact ⟨⟨true, "Operation allowed"⟩, by simp [ht],
      by simp [Bool.not_eq_true] at ht; simp [ht]⟩

/-- The same shape for one step of the `Glob` loop. -/
theorem globVerdict_spec (v : PyVal) (rest : List PyVal)
    (hrest : globCheck rest = ⟨true, "Operation allowed"⟩) :
    ∃ verd : Verdict, globCheck (v :: rest) = verd ∧
      (verd.allowed = false ↔ (pyTruthy v = true ∧ (check_sensitive_path v).fst = true)) := by
  by_cases ht : pyTruthy v = true
  · cases hc : check_sensitive_path v with
    | mk f r =>
      cases f
      · exact ⟨⟨true, "Operation allowed"⟩, by simp [globCheck, ht, hc, hrest],
          by simp [ht, hc]⟩
      · exact ⟨⟨false, "Blocked glob access to sensitive path: " ++ optText r⟩,
          by simp [globCheck, ht, hc], by simp [ht, hc]⟩
  · exact ⟨⟨true, "Operation allowed"⟩, by simp [globCheck, ht, hrest],
      by simp [Bool.not_eq_true] at ht; simp [ht]⟩

/-- C6 (amended): when the designated path field of a path-type tool holds
a non-string value, the evaluator does not raise; a falsy value is treated
as absent (allowed), while a truthy value is coerced to its textual
representation, which is checked against the path rules like any path. -/
theorem c6_nonstring_field_coerced (t k : String) (hmem : (t, k) ∈ pathToolFields)
    (v : PyVal) (hv : v.isStr = false) :
    ∃ verd : Verdict,
      validate_tool_call (.dict [("tool", .str t), ("parameters", .dict [(k, v)])]) =
        .ok verd ∧
      (verd.allowed = false ↔ (pyTruthy v = true ∧ (check_sensitive_path v).fst = true)) := by
  simp only [pathToolFields, List.mem_cons, List.not_mem_nil, or_false,
    Prod.mk.injEq] at hmem
  rcases hmem with hpair | hpair | hpair | hpair | hpair | hpair | hpair | hpair <;>
    obtain ⟨rfl, rfl⟩ := hpair
  · obtain ⟨verd, heq, hiff⟩ :=
      branchVerdict_spec "Blocked access to sensitive file: " v
    exact ⟨verd, heq, hiff⟩
  · obtain ⟨verd, heq, hiff⟩ :=
      branchVerdict_spec "Blocked access to sensitive file: " v
    exact ⟨verd, heq, hiff⟩
  · obtain ⟨verd, heq, hiff⟩ :=
      branchVerdict_spec "Blocked access to sensitive file: " v
    exact ⟨verd, heq, hiff⟩
  · obtain ⟨verd, heq, hiff⟩ :=
      branchVerdict_spec "Blocked access to sensitive file: " v
    exact ⟨verd, heq, hiff⟩
  · obtain ⟨verd, heq, hiff⟩ := globVerdict_spec v [.str ""] rfl
    exact ⟨verd, congrArg Except.ok heq, hiff⟩
  · obtain ⟨verd, heq, hiff⟩ := globVerdict_spec v [] rfl
    exact ⟨verd, congrArg Except.ok heq, hiff⟩
  · obtain ⟨verd, heq, hiff⟩ :=
      branchVerdict_spec "Blocked grep access to sensitive path: " v
    exact ⟨verd, heq, hiff⟩
  · obtain ⟨verd, heq, hiff⟩ :=
      branchVerdict_spec "Blocked directory listing of sensitive path: " v
    exact ⟨verd, heq, hiff⟩

/-- C6 witness: the amended theorem applied to an `LS` whose `path` is the
non-string number `7`: truthy, coerced to the benign text `7`, allowed. -/
theorem c6_nonstring_field_coerced_witness :
    ∃ verd : Verdict,
      validate_tool_call (.dict [("tool", .str "LS"),
        ("parameters", .dict [("path", .int 7)])]) = .ok verd ∧
      (verd.allowed = false ↔
        (pyTruthy (.int 7) = true ∧ (check_sensitive_path (.int 7)).fst = true)) :=
  c6_nonstring_field_coerced "LS" "path" (by decide) (.int 7) rfl

/-- C8: the evaluation is deterministic — any two evaluations of the same
invocation record produce the same outcome (same allowed flag, same
reason); the verdict is a function of the record and the static catalog
(`validate_tool_call` reads no other state). -/
theorem c8_deterministic (tool_data : PyVal) (r₁ r₂ : Except PyErr Verdict)
    (h₁ : validate_tool_call tool_data = r₁)
    (h₂ : validate_tool_call tool_data = r₂) : r₁ = r₂ := by
  rw [← h₁, ← h₂]

/-- C8 witness: two evaluations of `Bash, command = "ls -la"` produce the
same (allowing) outcome. -/
theorem c8_deterministic_witness :
    (Except.ok ⟨true, "Operation allowed"⟩ : Except PyErr Verdict) =
      .ok ⟨true, "Operation allowed"⟩ :=
  c8_deterministic (.dict [("tool", .str "Bash"),
    ("parameters", .dict [("command", .str "ls -la")])])
    (.ok ⟨true, "Operation allowed"⟩) (.ok ⟨true, "Operation allowed"⟩) rfl rfl

/-- C1: the process-edge error protocol is asymmetric — an undecodable
payload is reported and exits non-zero (fail closed), a fault during
evaluation after a successful decode is reported and exits zero (fail
open), and otherwise the verdict decides; for every input exactly one of
the three branches applies. -/
theorem c1_process_edge_protocol (input : Except String PyVal) :
    (decodeFailBranch input ∨ failOpenBranch input ∨ verdictBranch input) ∧
    ¬(decodeFailBranch input ∧ failOpenBranch input) ∧
    ¬(decodeFailBranch input ∧ verdictBranch input) ∧
    ¬(failOpenBranch input ∧ verdictBranch input) := by
  refine ⟨?_, ?_, ?_, ?_⟩
  · cases input with
    | error e => exact Or.inl ⟨e, rfl, rfl⟩
    | ok td =>
      cases hv : validate_tool_call td with
      | error err =>
        cases err with
        | attributeError m =>
          refine Or.inr (Or.inl ⟨td, m, rfl, hv, ?_⟩)
          simp [runMain, hv]
      | ok v =>
        refine Or.inr (Or.inr ⟨td, v, rfl, hv, ?_⟩)
        obtain ⟨al, r⟩ := v
        cases al <;> simp [runMain, hv]
  · rintro ⟨⟨e, he, -⟩, ⟨td, m, htd, -, -⟩⟩
    rw [he] at htd
    simp at htd
  · rintro ⟨⟨e, he, -⟩, ⟨td, v, htd, -, -⟩⟩
    rw [he] at htd
    simp at htd
  · rintro ⟨⟨td, m, htd, hverr, -⟩, ⟨td2, v, htd2, hvok, -⟩⟩
    rw [htd] at htd2
    injection htd2 with h
    subst h
    rw [hverr] at hvok
    simp at hvok

/-- C1 witness: the theorem applied to an undecodable payload. -/
theorem c1_process_edge_protocol_witness :
    (decodeFailBranch (.error "Expecting value") ∨
      failOpenBranch (.error "Expecting value") ∨
      verdictBranch (.error "Expecting value")) ∧
    ¬(decodeFailBranch (.error "Expecting value") ∧
      failOpenBranch (.error "Expecting value")) ∧
    ¬(decodeFailBranch (.error "Expecting value") ∧
      verdictBranch (.error "Expecting value")) ∧
    ¬(failOpenBranch (.error "Expecting value") ∧
      verdictBranch (.error "Expecting value")) :=
  c1_process_edge_protocol (.error "Expecting value")
